import Mathlib

/-! Verification of the schoolchamps-admin-server core: a shallow embedding of
the WordPress publish route with its coin ledger, the payment verification
route, the blog update routes, the social dispatch loop, the Facebook
credential store and the LinkedIn token refresh service, with theorems about
the ledger, ordering and failure-handling properties of those operations. -/

namespace SchoolChamps

/-- Actor roles carried by `req.user.role`. -/
inductive Role
  | admin
  | writer
  | school
  | marketer
  deriving DecidableEq, Repr

/-- The authenticated request context (`req.user`). -/
structure UserCtx where
  role : Role
  schoolId : Option Nat
  deriving DecidableEq, Repr

/-- Ledger entry types (`models/Transaction.type`). -/
inductive TxType
  | purchase
  | debit
  | reward
  deriving DecidableEq, Repr

/-- One ledger entry (model of `models/Transaction`). -/
structure Transaction where
  schoolId : Nat
  type : TxType
  coins : Int
  coinsBefore : Int
  coinsAfter : Int
  referenceId : String
  description : String
  deriving DecidableEq, Repr

/-- A school account (the fields of `models/School` the core reads). -/
structure School where
  id : Nat
  coins : Int
  deriving DecidableEq, Repr

/-- Blog lifecycle states (`models/Blog.status`). -/
inductive BlogStatus
  | draft_writer
  | draft_created
  | review
  | approved_school
  | rejected
  | published_wp
  deriving DecidableEq, Repr

/-- Submission lifecycle states (`models/Submission.status`). -/
inductive SubmissionStatus
  | submitted_school
  | draft_created
  | review
  | published_wp
  deriving DecidableEq, Repr

/-- A blog document (the fields of `models/Blog` the core reads or writes).
Timestamps are epoch milliseconds. -/
structure Blog where
  id : Nat
  submissionId : Nat
  title : String
  slug : String
  content : String
  metaTitle : String
  metaDescription : String
  featuredImage : Option String
  tags : List String
  category : String
  status : BlogStatus
  assignedSchool : Option Nat
  wordpressPostId : Option Nat
  wordpressUrl : Option String
  publishedAt : Option Nat
  deriving DecidableEq, Repr

/-- A WordPress tag as returned by `wordpressClient.getTags()`. -/
structure WpTag where
  id : Nat
  name : String
  deriving DecidableEq, Repr

/-- The result of `wordpressClient.createPost`. -/
structure WpPost where
  id : Nat
  link : String
  deriving DecidableEq, Repr

/-- The body the publish route sends to `wordpressClient.createPost`. -/
structure WpPostReq where
  title : String
  slug : String
  content : String
  excerpt : String
  metaTitle : String
  metaDescription : String
  featuredMedia : Option Nat
  tags : List Nat
  deriving DecidableEq, Repr

/-- Outcomes of the external WordPress collaborator calls and of the
file-system probe, fixed for one request: `none` models the call throwing. -/
structure WpEnv where
  fileExists : String → Bool
  uploadMedia : Option Nat
  getTags : Option (List WpTag)
  createTag : String → Option Nat
  createPost : Option WpPost
  now : Nat

/-- Database state the publish route reads and writes, with the blog and its
assigned school's document already resolved (the `findById` calls hit). -/
structure PublishState where
  school : School
  transactions : List Transaction
  blog : Blog
  submissionStatus : SubmissionStatus
  deriving DecidableEq, Repr

/-- Observable actions of one publish request, in program order: database
writes and outbound WordPress calls. -/
inductive Ev
  | schoolSave (coins : Int)
  | txCreate (t : Transaction)
  | wpUploadMedia (path : String)
  | wpGetTags
  | wpCreateTag (tagName : String)
  | wpCreatePost (req : WpPostReq)
  | blogSave (b : Blog)
  | submissionUpdate (s : SubmissionStatus)
  deriving DecidableEq, Repr

/-- Events that mutate the ledger: the school balance write and the
transaction appends. -/
def Ev.isLedger : Ev → Bool
  | .schoolSave _ => true
  | .txCreate _ => true
  | _ => false

/-- The external WordPress publish call itself. -/
def Ev.isCreatePost : Ev → Bool
  | .wpCreatePost _ => true
  | _ => false

/-- Responses of the publish route. -/
inductive PublishResult
  | notAssigned
  | forbidden
  | insufficientCoins (availableCoins : Int)
  | published (link : String)
  | serverError
  deriving DecidableEq, Repr

/-- The debit transaction the route logs for a non-admin publish. -/
def debitTx (s : School) (b : Blog) : Transaction :=
  { schoolId := s.id
    type := .debit
    coins := 99
    coinsBefore := s.coins
    coinsAfter := s.coins - 99
    referenceId := toString b.id
    description := "Post publishing cost: " ++ b.title }

/-- The reward transaction the route logs for a non-admin publish. -/
def rewardTx (s : School) (b : Blog) : Transaction :=
  { schoolId := s.id
    type := .reward
    coins := 50
    coinsBefore := s.coins - 99
    coinsAfter := s.coins - 99 + 50
    referenceId := toString b.id
    description := "Reward for publishing: " ++ b.title }

/-- Coin block of the publish route: skipped entirely for admins, otherwise
the balance write followed by the debit and reward appends. -/
def ledgerPhase (u : UserCtx) (st : PublishState) : PublishState × List Ev :=
  if u.role ≠ .admin then
    let d := debitTx st.school st.blog
    let r := rewardTx st.school st.blog
    let newCoins := st.school.coins - 99 + 50
    ({ st with
        school := { st.school with coins := newCoins }
        transactions := st.transactions ++ [d, r] },
     [.schoolSave newCoins, .txCreate d, .txCreate r])
  else (st, [])

/-- Featured-image block: `uploadMedia` is tried when the path is remote or
an existing local file; an upload error is swallowed (no media id). -/
def uploadFeatured (env : WpEnv) (img : Option String) : Option Nat × List Ev :=
  match img with
  | none => (none, [])
  | some path =>
    if path.startsWith "http" ∨ env.fileExists path = true then
      match env.uploadMedia with
      | some mediaId => (some mediaId, [.wpUploadMedia path])
      | none => (none, [.wpUploadMedia path])
    else (none, [])

/-- Body of the tag loop: reuse an existing tag whose name matches
case-insensitively, else create one; a failing `createTag` throws out of the
loop, keeping the ids collected so far. -/
def resolveTagIds (env : WpEnv) (existing : List WpTag) :
    List String → List Nat × List Ev
  | [] => ([], [])
  | tagName :: rest =>
    match existing.find? (fun t => t.name.toLower = tagName.toLower) with
    | some t =>
      let out := resolveTagIds env existing rest
      (t.id :: out.1, out.2)
    | none =>
      match env.createTag tagName with
      | some newId =>
        let out := resolveTagIds env existing rest
        (newId :: out.1, .wpCreateTag tagName :: out.2)
      | none => ([], [.wpCreateTag tagName])

/-- Tag block of the publish route: skipped when the blog has no tags; a
failing `getTags` is swallowed with an empty id list. -/
def resolveTags (env : WpEnv) (tags : List String) : List Nat × List Ev :=
  if tags.isEmpty then ([], [])
  else
    match env.getTags with
    | none => ([], [.wpGetTags])
    | some existing =>
      let out := resolveTagIds env existing tags
      (out.1, .wpGetTags :: out.2)

/-- The role gate `roleMiddleware('school', 'admin', 'writer')` of the
publish route. -/
def publishRoleAllowed (r : Role) : Prop :=
  r = .school ∨ r = .admin ∨ r = .writer

instance (r : Role) : Decidable (publishRoleAllowed r) := by
  unfold publishRoleAllowed; infer_instance

/-- The body the publish route passes to `wordpressClient.createPost`,
assembled from the blog and the featured-image and tag block results. -/
def publishReq (env : WpEnv) (b : Blog) : WpPostReq :=
  { title := b.title
    slug := b.slug
    content := b.content
    excerpt := b.metaDescription
    metaTitle := b.metaTitle
    metaDescription := b.metaDescription
    featuredMedia := (uploadFeatured env b.featuredImage).1
    tags := (resolveTags env b.tags).1 }

/-- Main body of the publish route, reached once every guard has passed:
the coin ledger block, the featured-image and tag blocks, the external
`createPost` call, then the blog and submission status writes. A failing
`createPost` throws into the route's catch, ending the request with every
state change already made retained. -/
def publishMain (u : UserCtx) (env : WpEnv) (st : PublishState) :
    PublishResult × PublishState × List Ev :=
  let lp := ledgerPhase u st
  let up := uploadFeatured env st.blog.featuredImage
  let tp := resolveTags env st.blog.tags
  let req := publishReq env st.blog
  match env.createPost with
  | none => (.serverError, lp.1, lp.2 ++ up.2 ++ tp.2 ++ [.wpCreatePost req])
  | some wp =>
    let published : Blog :=
      { st.blog with
          wordpressPostId := some wp.id
          wordpressUrl := some wp.link
          status := .published_wp
          publishedAt := some env.now }
    (.published wp.link,
     { lp.1 with blog := published, submissionStatus := .published_wp },
     lp.2 ++ up.2 ++ tp.2 ++
       [.wpCreatePost req, .blogSave published, .submissionUpdate .published_wp])

/-- Shallow embedding of `POST /api/wordpress/publish/:id`: the role gate,
the assignment, ownership and balance guards, then `publishMain`. -/
def publishBlog (u : UserCtx) (env : WpEnv) (st : PublishState) :
    PublishResult × PublishState × List Ev :=
  if ¬ publishRoleAllowed u.role then (.forbidden, st, [])
  else
    match st.blog.assignedSchool with
    | none => (.notAssigned, st, [])
    | some sid =>
      if u.role = .school ∧ u.schoolId ≠ some sid then (.forbidden, st, [])
      else if st.school.coins < 99 ∧ u.role ≠ .admin then
        (.insufficientCoins st.school.coins, st, [])
      else publishMain u env st

/-- Database state of the payment routes. -/
structure PaymentState where
  school : School
  transactions : List Transaction
  deriving DecidableEq, Repr

/-- Responses of the payment verification route. -/
inductive PayResult
  | notAuthorized
  | invalidSignature
  | verified (coins : Int)
  deriving DecidableEq, Repr

/-- Shallow embedding of `POST /api/payment/verify`: the HMAC comparison is
the boolean oracle `sigOk` (the payment collaborator is out of scope); on a
match the route adds 99 coins and appends one purchase transaction. -/
def verifyPayment (u : UserCtx) (sigOk : Bool) (paymentId : String)
    (st : PaymentState) : PayResult × PaymentState :=
  if ¬ (u.role = .school ∧ u.schoolId.isSome) then (.notAuthorized, st)
  else if sigOk then
    let tx : Transaction :=
      { schoolId := st.school.id
        type := .purchase
        coins := 99
        coinsBefore := st.school.coins
        coinsAfter := st.school.coins + 99
        referenceId := paymentId
        description := "Credit purchase via Razorpay" }
    (.verified (st.school.coins + 99),
     { school := { st.school with coins := st.school.coins + 99 }
       transactions := st.transactions ++ [tx] })
  else (.invalidSignature, st)

/-- Signed coin delta of a ledger entry: purchase and reward add coins,
debit subtracts them. -/
def signedDelta (t : Transaction) : Int :=
  match t.type with
  | .debit => -t.coins
  | .purchase => t.coins
  | .reward => t.coins

/-- The ledger snapshot invariant: every entry's balance-after equals its
balance-before plus the signed delta. -/
def chainOk (t : Transaction) : Prop :=
  t.coinsAfter = t.coinsBefore + signedDelta t

instance (t : Transaction) : Decidable (chainOk t) := by
  unfold chainOk; infer_instance

/-- A client-supplied body for the unrestricted
`Blog.findByIdAndUpdate(req.params.id, req.body)` calls: a present field is
written to the blog, an absent one is left alone. -/
structure BlogUpdate where
  title : Option String := none
  slug : Option String := none
  content : Option String := none
  metaTitle : Option String := none
  metaDescription : Option String := none
  featuredImage : Option (Option String) := none
  tags : Option (List String) := none
  category : Option String := none
  status : Option BlogStatus := none
  assignedSchool : Option (Option Nat) := none
  wordpressPostId : Option (Option Nat) := none
  wordpressUrl : Option (Option String) := none
  publishedAt : Option (Option Nat) := none
  deriving DecidableEq, Repr

/-- Field-wise application of an update body to a blog document. -/
def applyBlogUpdate (b : Blog) (u : BlogUpdate) : Blog :=
  { b with
      title := u.title.getD b.title
      slug := u.slug.getD b.slug
      content := u.content.getD b.content
      metaTitle := u.metaTitle.getD b.metaTitle
      metaDescription := u.metaDescription.getD b.metaDescription
      featuredImage := u.featuredImage.getD b.featuredImage
      tags := u.tags.getD b.tags
      category := u.category.getD b.category
      status := u.status.getD b.status
      assignedSchool := u.assignedSchool.getD b.assignedSchool
      wordpressPostId := u.wordpressPostId.getD b.wordpressPostId
      wordpressUrl := u.wordpressUrl.getD b.wordpressUrl
      publishedAt := u.publishedAt.getD b.publishedAt }

/-- Shallow embedding of `PUT /api/blogs/:id`: the `canEdit` permission
check, then the unrestricted update; `none` is the 403 response. -/
def updateBlog (u : UserCtx) (b : Blog) (upd : BlogUpdate) : Option Blog :=
  if u.role = .admin ∨ u.role = .writer ∨
      (u.role = .school ∧ b.assignedSchool = u.schoolId) then
    some (applyBlogUpdate b upd)
  else none

/-- Shallow embedding of `PUT /api/blogs/review/:id`: the role gate and the
school-ownership check, then the same unrestricted update. -/
def reviewBlog (u : UserCtx) (b : Blog) (upd : BlogUpdate) : Option Blog :=
  if ¬ (u.role = .school ∨ u.role = .admin) then none
  else if u.role = .school ∧ b.assignedSchool ≠ u.schoolId then none
  else some (applyBlogUpdate b upd)

/-- The claimed Blog invariant: the three WordPress fields are set exactly
when the status is `published_wp`. -/
def wpInvariant (b : Blog) : Prop :=
  (b.wordpressPostId.isSome ∧ b.wordpressUrl.isSome ∧ b.publishedAt.isSome) ↔
    b.status = .published_wp

instance (b : Blog) : Decidable (wpInvariant b) := by
  unfold wpInvariant; infer_instance

/-- A persisted `SocialPost` document. -/
structure SocialPost where
  blogId : Nat
  platform : String
  caption : String
  hashtags : List String
  isPublished : Bool
  publishedId : Option String
  createdBy : Nat
  deriving DecidableEq, Repr

/-- Outcomes of the per-platform collaborator calls for one dispatch
request: `none` models the platform client call throwing. `blog` is the
`Blog.findById` result consulted for the featured image. -/
structure SocialEnv where
  blog : Option Blog
  instagram : Option String
  facebook : Option String
  linkedin : Option String
  deriving DecidableEq, Repr

/-- One iteration of the platform loop of `POST /api/ai/post-to-social`:
the `isPublished` flag and external id recorded for the platform. Instagram
is skipped without error when there is no featured image; Twitter is
simulated as a success with no external id; an unrecognized platform is
recorded unpublished; a thrown client error is swallowed. -/
def attemptPlatform (env : SocialEnv) (platform : String) : Bool × Option String :=
  if platform = "instagram" then
    match env.blog.bind (fun b => b.featuredImage) with
    | none => (false, none)
    | some _ =>
      match env.instagram with
      | some postId => (true, some postId)
      | none => (false, none)
  else if platform = "facebook" then
    match env.facebook with
    | some postId => (true, some postId)
    | none => (false, none)
  else if platform = "linkedin" then
    match env.linkedin with
    | some postId => (true, some postId)
    | none => (false, none)
  else if platform = "twitter" then (true, none)
  else (false, none)

/-- The `SocialPost` document saved for one platform of a dispatch. -/
def socialRecord (env : SocialEnv) (blogId : Nat) (caption : String)
    (hashtags : List String) (userId : Nat) (platform : String) : SocialPost :=
  { blogId := blogId
    platform := platform
    caption := caption
    hashtags := hashtags
    isPublished := (attemptPlatform env platform).1
    publishedId := (attemptPlatform env platform).2
    createdBy := userId }

/-- The platform loop of `POST /api/ai/post-to-social`: one record is saved
per requested platform, in request order. -/
def postToSocial (env : SocialEnv) (blogId : Nat) (caption : String)
    (hashtags : List String) (userId : Nat) : List String → List SocialPost
  | [] => []
  | platform :: rest =>
    socialRecord env blogId caption hashtags userId platform ::
      postToSocial env blogId caption hashtags userId rest

/-- JavaScript `a || b` on optional strings: the empty string is falsy. -/
def jsOrStr (a b : Option String) : Option String :=
  match a with
  | some s => if s = "" then b else some s
  | none => b

/-- The stored Facebook credential record (`SocialToken`, platform
`facebook`). -/
structure FbToken where
  accessToken : String
  pageId : Option String
  deriving DecidableEq, Repr

/-- One page entry of the Graph `/me/accounts` response. -/
structure FbPage where
  id : String
  name : String
  accessToken : Option String
  deriving DecidableEq, Repr

/-- Environment of the Facebook client: the token/page env vars and the
outcome of the `/me/accounts` call (`none` models the call throwing). -/
structure FbEnv where
  envAccessToken : Option String
  envPageId : Option String
  accountsApi : Option (List FbPage)
  deriving DecidableEq, Repr

/-- Outbound Graph API calls and credential writes of the Facebook client. -/
inductive FbEv
  | accountsCall
  | saveToken (accessToken : String) (pageId : String)
  deriving DecidableEq, Repr

/-- Shallow embedding of `FacebookClient.getCredentials`: the stored token
with env-var fallback; `none` models the missing-credentials error. The
event list records every Graph API call the read makes. -/
def fbGetCredentials (env : FbEnv) (stored : Option FbToken) :
    Option (String × String) × List FbEv :=
  let accessToken := jsOrStr (stored.map (fun t => t.accessToken)) env.envAccessToken
  let pageId := jsOrStr (stored.bind (fun t => t.pageId)) env.envPageId
  match accessToken, pageId with
  | some a, some p => (some (a, p), [])
  | _, _ => (none, [])

/-- The Page token `/me/accounts` yields for a page id, if any: the entry
with the matching id, when it carries a truthy `access_token`. -/
def pageMatchToken (pages : List FbPage) (pageId : String) : Option String :=
  match pages.find? (fun p => p.id = pageId) with
  | some page =>
    match page.accessToken with
    | some t => if t = "" then none else some t
    | none => none
  | none => none

/-- Shallow embedding of `FacebookClient.saveCredentials`: always calls
`/me/accounts` to exchange the given token for a Page token, stores the
exchanged token when a matching page carries one, and stores the given
token as-is otherwise (an API error is swallowed). -/
def fbSaveCredentials (env : FbEnv) (userOrPageToken : String) (pageId : String) :
    FbToken × List FbEv :=
  let newToken :=
    match env.accountsApi with
    | none => userOrPageToken
    | some pages =>
      match pageMatchToken pages pageId with
      | some pageToken => pageToken
      | none => userOrPageToken
  ({ accessToken := newToken, pageId := some pageId },
   [.accountsCall, .saveToken newToken pageId])

/-- The stored LinkedIn credential record (`SocialToken`, platform
`linkedin`); the expiry is epoch milliseconds. -/
structure LinkedInToken where
  accessToken : String
  refreshToken : Option String
  tokenExpiresAt : Option Int
  personUrn : Option String
  deriving DecidableEq, Repr

/-- The body of a successful LinkedIn token endpoint response. -/
structure RefreshResponse where
  accessToken : String
  refreshToken : Option String
  expiresIn : Int
  deriving DecidableEq, Repr

/-- Environment of one refresh run: the wall clock, the LinkedIn token
endpoint outcome (`none` models the call failing) and whether a Facebook
token is stored or configured. -/
structure RefreshEnv where
  now : Int
  refreshApi : Option RefreshResponse
  fbStored : Bool
  deriving DecidableEq, Repr

/-- Observable actions of one refresh run: validation calls, the token
endpoint call, the no-refresh-token warning and the credential write. -/
inductive RefreshEv
  | liValidate
  | liRefreshApiCall
  | liWarnNoRefreshToken
  | liSaveToken (t : LinkedInToken)
  | fbValidate
  deriving DecidableEq, Repr

/-- Shallow embedding of `LinkedInClient.refreshAccessToken`: warns and
leaves the store alone without a truthy refresh token; otherwise calls the
token endpoint and on success rewrites the access token, keeps the old
refresh token unless a new one came back, and sets the expiry to
`now + expires_in * 1000`. `personUrn` is never touched. -/
def refreshAccessToken (env : RefreshEnv) (tok : Option LinkedInToken) :
    Bool × Option LinkedInToken × List RefreshEv :=
  match tok with
  | none => (false, none, [.liWarnNoRefreshToken])
  | some t =>
    match t.refreshToken with
    | none => (false, some t, [.liWarnNoRefreshToken])
    | some rt =>
      if rt = "" then (false, some t, [.liWarnNoRefreshToken])
      else
        match env.refreshApi with
        | none => (false, some t, [.liRefreshApiCall])
        | some r =>
          let t' : LinkedInToken :=
            { t with
                accessToken := r.accessToken
                refreshToken := jsOrStr r.refreshToken t.refreshToken
                tokenExpiresAt := some (env.now + r.expiresIn * 1000) }
          (true, some t', [.liRefreshApiCall, .liSaveToken t'])

/-- Milliseconds per day, the divisor of the scheduler's day count. -/
def msPerDay : Int := 1000 * 60 * 60 * 24

/-- The scheduler's `Math.floor((expiresAt - now) / msPerDay)`. -/
def daysUntilExpiry (now expiresAt : Int) : Int :=
  Int.fdiv (expiresAt - now) msPerDay

/-- Shallow embedding of `TokenRefreshService.checkLinkedIn`: skip without a
stored token, validate-only without an expiry date, refresh when the token
expires in at most 7 floor-days, and do nothing otherwise. -/
def checkLinkedIn (env : RefreshEnv) (tok : Option LinkedInToken) :
    Option LinkedInToken × List RefreshEv :=
  match tok with
  | none => (none, [])
  | some t =>
    match t.tokenExpiresAt with
    | none => (some t, [.liValidate])
    | some e =>
      if daysUntilExpiry env.now e ≤ 7 then
        let out := refreshAccessToken env (some t)
        (out.2.1, out.2.2)
      else (some t, [])

/-- Shallow embedding of `TokenRefreshService.checkFacebook`: a pure
validation that never writes the store. -/
def checkFacebook (env : RefreshEnv) : List RefreshEv :=
  if env.fbStored then [.fbValidate] else []

/-- Shallow embedding of `TokenRefreshService.refreshAll`: the LinkedIn
check followed by the Facebook check. -/
def refreshAll (env : RefreshEnv) (tok : Option LinkedInToken) :
    Option LinkedInToken × List RefreshEv :=
  let out := checkLinkedIn env tok
  (out.1, out.2 ++ checkFacebook env)

/-! Helper lemmas about the phases of the publish route. -/

theorem ledgerPhase_admin (u : UserCtx) (st : PublishState) (h : u.role = .admin) :
    ledgerPhase u st = (st, []) := by
  simp [ledgerPhase, h]

theorem ledgerPhase_nonAdmin (u : UserCtx) (st : PublishState) (h : u.role ≠ .admin) :
    ledgerPhase u st =
      ({ st with
          school := { st.school with coins := st.school.coins - 99 + 50 }
          transactions :=
            st.transactions ++ [debitTx st.school st.blog, rewardTx st.school st.blog] },
       [.schoolSave (st.school.coins - 99 + 50), .txCreate (debitTx st.school st.blog),
        .txCreate (rewardTx st.school st.blog)]) := by
  simp [ledgerPhase, h]

theorem ledgerPhase_blog (u : UserCtx) (st : PublishState) :
    (ledgerPhase u st).1.blog = st.blog := by
  unfold ledgerPhase; split <;> rfl

theorem ledgerPhase_submission (u : UserCtx) (st : PublishState) :
    (ledgerPhase u st).1.submissionStatus = st.submissionStatus := by
  unfold ledgerPhase; split <;> rfl

theorem publishMain_school (u : UserCtx) (env : WpEnv) (st : PublishState) :
    (publishMain u env st).2.1.school = (ledgerPhase u st).1.school := by
  unfold publishMain; cases env.createPost <;> rfl

theorem publishMain_transactions (u : UserCtx) (env : WpEnv) (st : PublishState) :
    (publishMain u env st).2.1.transactions = (ledgerPhase u st).1.transactions := by
  unfold publishMain; cases env.createPost <;> rfl

theorem publishMain_fail (u : UserCtx) (env : WpEnv) (st : PublishState)
    (h : env.createPost = none) :
    publishMain u env st =
      (.serverError, (ledgerPhase u st).1,
       (ledgerPhase u st).2 ++ (uploadFeatured env st.blog.featuredImage).2 ++
         (resolveTags env st.blog.tags).2 ++ [.wpCreatePost (publishReq env st.blog)]) := by
  unfold publishMain; rw [h]

theorem publishMain_ok (u : UserCtx) (env : WpEnv) (st : PublishState) (wp : WpPost)
    (h : env.createPost = some wp) :
    (publishMain u env st).1 = .published wp.link ∧
    (publishMain u env st).2.1.blog =
      { st.blog with
          wordpressPostId := some wp.id
          wordpressUrl := some wp.link
          status := .published_wp
          publishedAt := some env.now } ∧
    (publishMain u env st).2.1.submissionStatus = .published_wp := by
  unfold publishMain; rw [h]; exact ⟨rfl, rfl, rfl⟩

theorem publishBlog_passes (u : UserCtx) (env : WpEnv) (st : PublishState) (sid : Nat)
    (hA : st.blog.assignedSchool = some sid)
    (hRole : publishRoleAllowed u.role)
    (hOwn : ¬ (u.role = .school ∧ u.schoolId ≠ some sid))
    (hBal : ¬ (st.school.coins < 99 ∧ u.role ≠ .admin)) :
    publishBlog u env st = publishMain u env st := by
  unfold publishBlog
  rw [if_neg (not_not_intro hRole)]
  simp only [hA]
  rw [if_neg hOwn, if_neg hBal]

theorem ledgerPhase_events (u : UserCtx) (st : PublishState) :
    ∀ e ∈ (ledgerPhase u st).2, e.isCreatePost = false := by
  unfold ledgerPhase
  split
  · intro e he
    simp only [List.mem_cons, List.not_mem_nil, or_false] at he
    rcases he with h | h | h <;> subst h <;> rfl
  · intro e he
    simp at he

theorem uploadFeatured_events (env : WpEnv) (img : Option String) :
    ∀ e ∈ (uploadFeatured env img).2, e.isLedger = false ∧ e.isCreatePost = false := by
  intro e he
  cases img with
  | none => simp [uploadFeatured] at he
  | some p =>
    by_cases hc : p.startsWith "http" = true ∨ env.fileExists p = true
    · simp only [uploadFeatured, if_pos hc] at he
      cases hm : env.uploadMedia <;> rw [hm] at he <;>
        (simp only [List.mem_singleton] at he; subst he; exact ⟨rfl, rfl⟩)
    · simp only [uploadFeatured, if_neg hc] at he
      simp at he

theorem resolveTagIds_events (env : WpEnv) (ex : List WpTag) :
    ∀ l, ∀ e ∈ (resolveTagIds env ex l).2, e.isLedger = false ∧ e.isCreatePost = false := by
  intro l
  induction l with
  | nil => intro e he; simp [resolveTagIds] at he
  | cons n rest ih =>
    intro e he
    unfold resolveTagIds at he
    cases hfind : ex.find? (fun t => t.name.toLower = n.toLower) with
    | some t =>
      rw [hfind] at he
      exact ih e he
    | none =>
      rw [hfind] at he
      cases hct : env.createTag n with
      | some newId =>
        rw [hct] at he
        simp only [List.mem_cons] at he
        rcases he with h | h
        · subst h; exact ⟨rfl, rfl⟩
        · exact ih e h
      | none =>
        rw [hct] at he
        simp only [List.mem_singleton] at he
        subst he; exact ⟨rfl, rfl⟩

theorem resolveTags_events (env : WpEnv) (tags : List String) :
    ∀ e ∈ (resolveTags env tags).2, e.isLedger = false ∧ e.isCreatePost = false := by
  unfold resolveTags
  split
  · intro e he; simp at he
  · cases hg : env.getTags with
    | none =>
      intro e he
      simp only [List.mem_singleton] at he
      subst he; exact ⟨rfl, rfl⟩
    | some ex =>
      intro e he
      simp only [List.mem_cons] at he
      rcases he with h | h
      · subst h; exact ⟨rfl, rfl⟩
      · exact resolveTagIds_events env ex tags e h

theorem publishMain_trace (u : UserCtx) (env : WpEnv) (st : PublishState) :
    ∃ tail, (publishMain u env st).2.2 =
        (ledgerPhase u st).2 ++ ((uploadFeatured env st.blog.featuredImage).2 ++
          ((resolveTags env st.blog.tags).2 ++
            (Ev.wpCreatePost (publishReq env st.blog) :: tail))) ∧
      ∀ e ∈ tail, e.isLedger = false ∧ e.isCreatePost = false := by
  cases h : env.createPost with
  | none =>
    refine ⟨[], ?_, by intro e he; simp at he⟩
    simp [publishMain, h]
  | some wp =>
    refine ⟨[Ev.blogSave
        { st.blog with
            wordpressPostId := some wp.id
            wordpressUrl := some wp.link
            status := .published_wp
            publishedAt := some env.now },
      Ev.submissionUpdate .published_wp], ?_, ?_⟩
    · simp [publishMain, h]
    · intro e he
      simp only [List.mem_cons, List.not_mem_nil, or_false] at he
      rcases he with h | h <;> subst h <;> exact ⟨rfl, rfl⟩

/-- Trace ordering: every ledger mutation happens strictly before every
invocation of the external WordPress publish call. -/
def ledgerBeforeCreatePost (tr : List Ev) : Prop :=
  ∀ i j, (hi : i < tr.length) → (hj : j < tr.length) →
    (tr.get ⟨i, hi⟩).isLedger = true → (tr.get ⟨j, hj⟩).isCreatePost = true → i < j

theorem ledgerBefore_of_split (tr1 tr2 : List Ev)
    (h1 : ∀ e ∈ tr1, e.isCreatePost = false)
    (h2 : ∀ e ∈ tr2, e.isLedger = false) :
    ledgerBeforeCreatePost (tr1 ++ tr2) := by
  intro i j hi hj hL hC
  have hjlen : tr1.length ≤ j := by
    by_contra hjl
    push_neg at hjl
    have hmem : (tr1 ++ tr2).get ⟨j, hj⟩ ∈ tr1 := by
      rw [List.get_eq_getElem, List.getElem_append_left hjl]
      exact List.getElem_mem hjl
    rw [h1 _ hmem] at hC
    cases hC
  have hilt : i < tr1.length := by
    by_contra hil
    push_neg at hil
    have hmem : (tr1 ++ tr2).get ⟨i, hi⟩ ∈ tr2 := by
      rw [List.get_eq_getElem, List.getElem_append_right hil]
      exact List.getElem_mem (by simp at hi; omega)
    rw [h2 _ hmem] at hL
    cases hL
  omega

/-- The two-entry ledger outcome the spec promises a non-admin publish:
exactly a debit of 99 then a reward of 50 are appended, their snapshots
chain, and the balance drops by 49. -/
def nonAdminLedgerOutcome (st st' : PublishState) : Prop :=
  ∃ d r, st'.transactions = st.transactions ++ [d, r] ∧
    d.type = .debit ∧ d.coins = 99 ∧
    r.type = .reward ∧ r.coins = 50 ∧
    d.coinsBefore = st.school.coins ∧
    d.coinsAfter = st.school.coins - 99 ∧
    r.coinsBefore = d.coinsAfter ∧
    r.coinsAfter = st.school.coins - 49 ∧
    st'.school.coins = st.school.coins - 49

/-- C1: a publish by a non-admin actor (a writer, or the school the blog is
assigned to) against a school holding at least 99 coins appends exactly two
transactions — a debit of 99 then a reward of 50 — whose coinsBefore and
coinsAfter snapshots chain, and leaves the school's balance lower by 49. -/
theorem publish_nonAdmin_two_transactions (u : UserCtx) (env : WpEnv)
    (st : PublishState) (sid : Nat)
    (hA : st.blog.assignedSchool = some sid)
    (hAuth : u.role = .writer ∨ (u.role = .school ∧ u.schoolId = some sid))
    (hBal : 99 ≤ st.school.coins) :
    nonAdminLedgerOutcome st (publishBlog u env st).2.1 := by
  have hNotAdmin : u.role ≠ .admin := by
    rcases hAuth with h | ⟨h, _⟩ <;> rw [h] <;> intro hh <;> cases hh
  have hRole : publishRoleAllowed u.role := by
    rcases hAuth with h | ⟨h, _⟩ <;> rw [h] <;> simp [publishRoleAllowed]
  have hOwn : ¬ (u.role = .school ∧ u.schoolId ≠ some sid) := by
    rcases hAuth with h | ⟨h1, h2⟩
    · rintro ⟨hs, -⟩; rw [h] at hs; cases hs
    · rintro ⟨-, hne⟩; exact hne h2
  have hBalG : ¬ (st.school.coins < 99 ∧ u.role ≠ .admin) := by
    rintro ⟨hlt, -⟩; omega
  rw [publishBlog_passes u env st sid hA hRole hOwn hBalG]
  refine ⟨debitTx st.school st.blog, rewardTx st.school st.blog, ?_, rfl, rfl, rfl, rfl,
    rfl, rfl, rfl, ?_, ?_⟩
  · rw [publishMain_transactions, ledgerPhase_nonAdmin u st hNotAdmin]
  · simp [rewardTx]; omega
  · rw [publishMain_school, ledgerPhase_nonAdmin u st hNotAdmin]; simp; omega

/-- C1 witness inputs: a school-role user publishing an assigned blog from a
school with 120 coins. -/
def wBlog : Blog :=
  { id := 7, submissionId := 3, title := "T", slug := "t", content := "C",
    metaTitle := "MT", metaDescription := "MD", featuredImage := some "img.jpg",
    tags := [], category := "news", status := .review, assignedSchool := some 5,
    wordpressPostId := none, wordpressUrl := none, publishedAt := none }

def wState : PublishState :=
  { school := { id := 5, coins := 120 }, transactions := [], blog := wBlog,
    submissionStatus := .review }

def wEnv : WpEnv :=
  { fileExists := fun _ => false, uploadMedia := none, getTags := none,
    createTag := fun _ => none, createPost := some ⟨42, "https://wp/t"⟩, now := 1000 }

def wUser : UserCtx := { role := .school, schoolId := some 5 }

/-- Witness for C1 at the concrete inputs above. -/
theorem publish_nonAdmin_two_transactions_witness :
    nonAdminLedgerOutcome wState (publishBlog wUser wEnv wState).2.1 :=
  publish_nonAdmin_two_transactions wUser wEnv wState 5 rfl
    (Or.inr ⟨rfl, rfl⟩) (by decide)

/-- C3: a publish attempt by the assigned school's own account against a
balance strictly below 99 returns the insufficient-balance error carrying
the current balance and changes nothing: no transaction is appended, the
balance, blog and submission statuses stay as they were, and no external
call is made. -/
theorem publish_insufficient_balance_rejected (u : UserCtx) (env : WpEnv)
    (st : PublishState) (sid : Nat)
    (hRole : u.role = .school) (hSid : u.schoolId = some sid)
    (hA : st.blog.assignedSchool = some sid)
    (hBal : st.school.coins < 99) :
    publishBlog u env st = (.insufficientCoins st.school.coins, st, []) := by
  have hR : publishRoleAllowed u.role := Or.inl hRole
  unfold publishBlog
  rw [if_neg (not_not_intro hR)]
  simp only [hA]
  rw [if_neg (by rintro ⟨-, hne⟩; exact hne hSid)]
  rw [if_pos ⟨hBal, by rw [hRole]; intro h; cases h⟩]

/-- Witness state for C3: the same school with only 40 coins. -/
def wStatePoor : PublishState :=
  { school := { id := 5, coins := 40 }, transactions := [], blog := wBlog,
    submissionStatus := .review }

/-- Witness for C3 at the concrete inputs above. -/
theorem publish_insufficient_balance_rejected_witness :
    publishBlog wUser wEnv wStatePoor = (.insufficientCoins 40, wStatePoor, []) :=
  publish_insufficient_balance_rejected wUser wEnv wStatePoor 5 rfl rfl rfl (by decide)

/-- C6: a publish by an admin never writes the ledger — the transaction list
and the school document are untouched — and is never blocked by the balance:
whatever the balance, the insufficient-balance error is impossible and the
external publish call is reached. -/
theorem publish_admin_no_ledger (u : UserCtx) (env : WpEnv)
    (st : PublishState) (sid : Nat)
    (hAdmin : u.role = .admin) (hA : st.blog.assignedSchool = some sid) :
    (publishBlog u env st).2.1.transactions = st.transactions ∧
    (publishBlog u env st).2.1.school = st.school ∧
    (∀ a, (publishBlog u env st).1 ≠ .insufficientCoins a) ∧
    (∃ req, Ev.wpCreatePost req ∈ (publishBlog u env st).2.2) := by
  have hRole : publishRoleAllowed u.role := Or.inr (Or.inl hAdmin)
  have hOwn : ¬ (u.role = .school ∧ u.schoolId ≠ some sid) := by
    rintro ⟨hs, -⟩; rw [hAdmin] at hs; cases hs
  have hBalG : ¬ (st.school.coins < 99 ∧ u.role ≠ .admin) := by
    rintro ⟨-, hne⟩; exact hne hAdmin
  rw [publishBlog_passes u env st sid hA hRole hOwn hBalG]
  refine ⟨?_, ?_, ?_, ?_⟩
  · rw [publishMain_transactions, ledgerPhase_admin u st hAdmin]
  · rw [publishMain_school, ledgerPhase_admin u st hAdmin]
  · intro a
    unfold publishMain
    cases env.createPost <;> intro h <;> cases h
  · obtain ⟨tail, htr, -⟩ := publishMain_trace u env st
    refine ⟨publishReq env st.blog, ?_⟩
    rw [htr]
    exact List.mem_append_right _ (List.mem_append_right _
      (List.mem_append_right _ (List.mem_cons_self _ _)))

/-- Witness state for C6: an admin publishing against a school with only 3
coins. -/
def wStateAdmin : PublishState :=
  { school := { id := 5, coins := 3 }, transactions := [], blog := wBlog,
    submissionStatus := .review }

def wAdmin : UserCtx := { role := .admin, schoolId := none }

/-- Witness for C6 at the concrete inputs above. -/
theorem publish_admin_no_ledger_witness :
    (publishBlog wAdmin wEnv wStateAdmin).2.1.transactions = wStateAdmin.transactions ∧
    (publishBlog wAdmin wEnv wStateAdmin).2.1.school = wStateAdmin.school ∧
    (∀ a, (publishBlog wAdmin wEnv wStateAdmin).1 ≠ .insufficientCoins a) ∧
    (∃ req, Ev.wpCreatePost req ∈ (publishBlog wAdmin wEnv wStateAdmin).2.2) :=
  publish_admin_no_ledger wAdmin wEnv wStateAdmin 5 rfl rfl

/-- C2: for a non-admin publish that passes the guards, every ledger
mutation (the balance write and both transaction appends) occurs strictly
before the external WordPress publish call in the request's trace; and when
that call fails the request ends in the error path with the blog left in
its prior status with no WordPress fields set, while the committed debit
and reward are retained and the balance stays lower by 49. -/
theorem publish_ledger_precedes_wp_call (u : UserCtx) (env : WpEnv)
    (st : PublishState) (sid : Nat)
    (hA : st.blog.assignedSchool = some sid)
    (hAuth : u.role = .writer ∨ (u.role = .school ∧ u.schoolId = some sid))
    (hBal : 99 ≤ st.school.coins)
    (hWp1 : st.blog.wordpressPostId = none)
    (hWp2 : st.blog.wordpressUrl = none)
    (hWp3 : st.blog.publishedAt = none) :
    ledgerBeforeCreatePost (publishBlog u env st).2.2 ∧
    (env.createPost = none →
      (publishBlog u env st).1 = .serverError ∧
      (publishBlog u env st).2.1.blog = st.blog ∧
      (publishBlog u env st).2.1.blog.status = st.blog.status ∧
      (publishBlog u env st).2.1.blog.wordpressPostId = none ∧
      (publishBlog u env st).2.1.blog.wordpressUrl = none ∧
      (publishBlog u env st).2.1.blog.publishedAt = none ∧
      (publishBlog u env st).2.1.transactions
        = st.transactions ++ [debitTx st.school st.blog, rewardTx st.school st.blog] ∧
      (publishBlog u env st).2.1.school.coins = st.school.coins - 49) := by
  have hNotAdmin : u.role ≠ .admin := by
    rcases hAuth with h | ⟨h, -⟩ <;> rw [h] <;> intro hh <;> cases hh
  have hRole : publishRoleAllowed u.role := by
    rcases hAuth with h | ⟨h, -⟩ <;> rw [h] <;> simp [publishRoleAllowed]
  have hOwn : ¬ (u.role = .school ∧ u.schoolId ≠ some sid) := by
    rcases hAuth with h | ⟨h1, h2⟩
    · rintro ⟨hs, -⟩; rw [h] at hs; cases hs
    · rintro ⟨-, hne⟩; exact hne h2
  have hBalG : ¬ (st.school.coins < 99 ∧ u.role ≠ .admin) := by
    rintro ⟨hlt, -⟩; omega
  rw [publishBlog_passes u env st sid hA hRole hOwn hBalG]
  obtain ⟨tail, htr, htail⟩ := publishMain_trace u env st
  constructor
  · rw [htr]
    apply ledgerBefore_of_split
    · exact ledgerPhase_events u st
    · intro e he
      rcases List.mem_append.mp he with h | h
      · exact (uploadFeatured_events env _ e h).1
      · rcases List.mem_append.mp h with h2 | h2
        · exact (resolveTags_events env _ e h2).1
        · rcases List.mem_cons.mp h2 with h3 | h3
          · subst h3; rfl
          · exact (htail e h3).1
  · intro hcp
    rw [publishMain_fail u env st hcp]
    refine ⟨rfl, ?_, ?_, ?_, ?_, ?_, ?_, ?_⟩
    · exact ledgerPhase_blog u st
    · show (ledgerPhase u st).1.blog.status = st.blog.status
      rw [ledgerPhase_blog]
    · show (ledgerPhase u st).1.blog.wordpressPostId = none
      rw [ledgerPhase_blog]; exact hWp1
    · show (ledgerPhase u st).1.blog.wordpressUrl = none
      rw [ledgerPhase_blog]; exact hWp2
    · show (ledgerPhase u st).1.blog.publishedAt = none
      rw [ledgerPhase_blog]; exact hWp3
    · show (ledgerPhase u st).1.transactions = _
      rw [ledgerPhase_nonAdmin u st hNotAdmin]
    · show (ledgerPhase u st).1.school.coins = st.school.coins - 49
      rw [ledgerPhase_nonAdmin u st hNotAdmin]
      show st.school.coins - 99 + 50 = st.school.coins - 49
      omega

/-- Witness environment for C2: the external publish call fails. -/
def wEnvFail : WpEnv :=
  { fileExists := fun _ => false, uploadMedia := none, getTags := none,
    createTag := fun _ => none, createPost := none, now := 1000 }

/-- Witness for C2 at the concrete inputs above. -/
theorem publish_ledger_precedes_wp_call_witness :
    ledgerBeforeCreatePost (publishBlog wUser wEnvFail wState).2.2 ∧
    (wEnvFail.createPost = none →
      (publishBlog wUser wEnvFail wState).1 = .serverError ∧
      (publishBlog wUser wEnvFail wState).2.1.blog = wState.blog ∧
      (publishBlog wUser wEnvFail wState).2.1.blog.status = wState.blog.status ∧
      (publishBlog wUser wEnvFail wState).2.1.blog.wordpressPostId = none ∧
      (publishBlog wUser wEnvFail wState).2.1.blog.wordpressUrl = none ∧
      (publishBlog wUser wEnvFail wState).2.1.blog.publishedAt = none ∧
      (publishBlog wUser wEnvFail wState).2.1.transactions
        = wState.transactions ++
            [debitTx wState.school wState.blog, rewardTx wState.school wState.blog] ∧
      (publishBlog wUser wEnvFail wState).2.1.school.coins = wState.school.coins - 49) :=
  publish_ledger_precedes_wp_call wUser wEnvFail wState 5 rfl
    (Or.inr ⟨rfl, rfl⟩) (by decide) rfl rfl rfl

/-- C10: when the blog has a featured image whose upload cannot happen (the
path is neither remote nor an existing local file) or whose upload call
fails, the publish still succeeds: the WordPress post is created with no
featured media id in the request, and the response and resulting state are
exactly those of the same publish with a working image upload. -/
theorem publish_image_failure_swallowed (u : UserCtx) (env : WpEnv)
    (st : PublishState) (sid : Nat) (path : String) (wp : WpPost) (mediaId : Nat)
    (hA : st.blog.assignedSchool = some sid)
    (hRole : publishRoleAllowed u.role)
    (hOwn : ¬ (u.role = .school ∧ u.schoolId ≠ some sid))
    (hBalG : ¬ (st.school.coins < 99 ∧ u.role ≠ .admin))
    (hImg : st.blog.featuredImage = some path)
    (hFail : ¬ (path.startsWith "http" = true ∨ env.fileExists path = true) ∨
      env.uploadMedia = none)
    (hPost : env.createPost = some wp) :
    (publishBlog u env st).1 = .published wp.link ∧
    (∀ req, Ev.wpCreatePost req ∈ (publishBlog u env st).2.2 →
      req.featuredMedia = none) ∧
    (publishBlog u env st).1 =
      (publishBlog u
        { env with uploadMedia := some mediaId, fileExists := fun _ => true } st).1 ∧
    (publishBlog u env st).2.1 =
      (publishBlog u
        { env with uploadMedia := some mediaId, fileExists := fun _ => true } st).2.1 := by
  have hup : (uploadFeatured env st.blog.featuredImage).1 = none := by
    rw [hImg]
    simp only [uploadFeatured]
    rcases hFail with h | h
    · rw [if_neg h]
    · by_cases hc : path.startsWith "http" = true ∨ env.fileExists path = true
      · rw [if_pos hc, h]
      · rw [if_neg hc]
  rw [publishBlog_passes u env st sid hA hRole hOwn hBalG,
    publishBlog_passes u _ st sid hA hRole hOwn hBalG]
  have hPost' : ({ env with uploadMedia := some mediaId, fileExists := fun _ => true } : WpEnv).createPost = some wp := hPost
  refine ⟨(publishMain_ok u env st wp hPost).1, ?_, ?_, ?_⟩
  · obtain ⟨tail, htr, htail⟩ := publishMain_trace u env st
    rw [htr]
    intro req hmem
    rcases List.mem_append.mp hmem with h | h
    · have := ledgerPhase_events u st _ h
      simp [Ev.isCreatePost] at this
    · rcases List.mem_append.mp h with h2 | h2
      · have := (uploadFeatured_events env _ _ h2).2
        simp [Ev.isCreatePost] at this
      · rcases List.mem_append.mp h2 with h3 | h3
        · have := (resolveTags_events env _ _ h3).2
          simp [Ev.isCreatePost] at this
        · rcases List.mem_cons.mp h3 with h4 | h4
          · have hreq : req = publishReq env st.blog := by
              injection h4
            subst hreq
            show (uploadFeatured env st.blog.featuredImage).1 = none
            exact hup
          · have := (htail _ h4).2
            simp [Ev.isCreatePost] at this
  · rw [(publishMain_ok u env st wp hPost).1, (publishMain_ok u _ st wp hPost').1]
  · unfold publishMain
    rw [hPost]

/-- Witness for C10: the featured image `img.jpg` is neither remote nor an
existing local file, yet the publish succeeds. -/
theorem publish_image_failure_swallowed_witness :
    (publishBlog wUser wEnv wState).1 = .published (WpPost.mk 42 "https://wp/t").link ∧
    (∀ req, Ev.wpCreatePost req ∈ (publishBlog wUser wEnv wState).2.2 →
      req.featuredMedia = none) ∧
    (publishBlog wUser wEnv wState).1 =
      (publishBlog wUser
        { wEnv with uploadMedia := some 77, fileExists := fun _ => true } wState).1 ∧
    (publishBlog wUser wEnv wState).2.1 =
      (publishBlog wUser
        { wEnv with uploadMedia := some 77, fileExists := fun _ => true } wState).2.1 :=
  publish_image_failure_swallowed wUser wEnv wState 5 "img.jpg" ⟨42, "https://wp/t"⟩ 77
    rfl (Or.inl rfl) (by decide) (by decide) rfl (Or.inr rfl) rfl

/-- C4: both ledger-writing operations — the publish route's debit and
reward appends and the payment route's purchase append — preserve the
snapshot invariant `coinsAfter = coinsBefore + signed(coins, type)` on every
stored transaction. -/
theorem ledger_entries_chain (u : UserCtx) (env : WpEnv) (st : PublishState)
    (sigOk : Bool) (paymentId : String) (ps : PaymentState)
    (h1 : ∀ t ∈ st.transactions, chainOk t)
    (h2 : ∀ t ∈ ps.transactions, chainOk t) :
    (∀ t ∈ (publishBlog u env st).2.1.transactions, chainOk t) ∧
    (∀ t ∈ (verifyPayment u sigOk paymentId ps).2.transactions, chainOk t) := by
  constructor
  · have hcases : (publishBlog u env st).2.1.transactions = st.transactions ∨
        (publishBlog u env st).2.1.transactions =
          st.transactions ++ [debitTx st.school st.blog, rewardTx st.school st.blog] := by
      unfold publishBlog
      split
      · left; rfl
      · split
        · left; rfl
        · split
          · left; rfl
          · split
            · left; rfl
            · rw [publishMain_transactions]
              by_cases hadm : u.role = .admin
              · left; rw [ledgerPhase_admin u st hadm]
              · right; rw [ledgerPhase_nonAdmin u st hadm]
    intro t ht
    rcases hcases with hc | hc <;> rw [hc] at ht
    · exact h1 t ht
    · rcases List.mem_append.mp ht with h | h
      · exact h1 t h
      · rcases List.mem_cons.mp h with h3 | h3
        · subst h3
          show (debitTx st.school st.blog).coinsAfter = _
          simp [debitTx, signedDelta, chainOk]
          omega
        · rcases List.mem_cons.mp h3 with h4 | h4
          · subst h4
            show (rewardTx st.school st.blog).coinsAfter = _
            simp [rewardTx, signedDelta, chainOk]
          · simp at h4
  · intro t ht
    unfold verifyPayment at ht
    split at ht
    · exact h2 t ht
    · split at ht
      · rcases List.mem_append.mp ht with h | h
        · exact h2 t h
        · rcases List.mem_cons.mp h with h3 | h3
          · subst h3
            simp [chainOk, signedDelta]
          · simp at h3
      · exact h2 t ht

/-- Witness payment state for C4. -/
def wPayState : PaymentState :=
  { school := { id := 5, coins := 10 }, transactions := [] }

/-- Witness for C4 at the concrete inputs above. -/
theorem ledger_entries_chain_witness :
    (∀ t ∈ (publishBlog wUser wEnv wState).2.1.transactions, chainOk t) ∧
    (∀ t ∈ (verifyPayment wUser true "pay_1" wPayState).2.transactions, chainOk t) :=
  ledger_entries_chain wUser wEnv wState true "pay_1" wPayState
    (by intro t ht; simp [wState] at ht) (by intro t ht; simp [wPayState] at ht)

/-- C5: the social dispatch saves exactly one record per requested platform
— each record a pure function of its own platform's outcome, so one
platform's failure never aborts or alters the others — and a failed attempt
is always recorded with `isPublished = false` and no external post id. -/
theorem social_dispatch_per_platform (env : SocialEnv) (blogId : Nat)
    (caption : String) (hashtags : List String) (userId : Nat)
    (platforms : List String) :
    postToSocial env blogId caption hashtags userId platforms
        = platforms.map (socialRecord env blogId caption hashtags userId) ∧
    (postToSocial env blogId caption hashtags userId platforms).length
        = platforms.length ∧
    ∀ p, (attemptPlatform env p).1 = false → (attemptPlatform env p).2 = none := by
  have hmap : postToSocial env blogId caption hashtags userId platforms
      = platforms.map (socialRecord env blogId caption hashtags userId) := by
    induction platforms with
    | nil => rfl
    | cons p rest ih => simp [postToSocial, ih]
  refine ⟨hmap, by rw [hmap, List.length_map], ?_⟩
  intro p h
  unfold attemptPlatform at h ⊢
  split_ifs at h ⊢
  · cases hb : env.blog.bind (fun b => b.featuredImage) with
    | none => rfl
    | some x =>
      rw [hb] at h
      cases hi : env.instagram with
      | none => rfl
      | some y => rw [hi] at h; exact Bool.noConfusion h
  · cases hf : env.facebook with
    | none => rfl
    | some y => rw [hf] at h; exact Bool.noConfusion h
  · cases hl : env.linkedin with
    | none => rfl
    | some y => rw [hl] at h; exact Bool.noConfusion h
  · rfl

/-- An update body that only flips the status, as any authorized client may
send to the unrestricted update routes. -/
def updPublish : BlogUpdate := { status := some .published_wp }

/-- Counterexample to C7: the generic blog-update route does not preserve
the WordPress-fields biconditional — an admin update setting only
`status := published_wp` succeeds and leaves all three WordPress fields
unset on a `published_wp` blog. -/
theorem blog_update_breaks_wp_invariant :
    wpInvariant wBlog ∧
    updateBlog wAdmin wBlog updPublish = some { wBlog with status := .published_wp } ∧
    ¬ wpInvariant { wBlog with status := .published_wp } := by
  refine ⟨by decide, by decide, by decide⟩

/-- C7 (amended): the publish operation itself preserves the biconditional —
it either leaves the blog untouched or sets all three WordPress fields
together with status `published_wp`. -/
theorem publish_preserves_wp_invariant (u : UserCtx) (env : WpEnv)
    (st : PublishState) (h : wpInvariant st.blog) :
    wpInvariant (publishBlog u env st).2.1.blog := by
  unfold publishBlog
  split
  · exact h
  · split
    · exact h
    · split
      · exact h
      · split
        · exact h
        · cases hcp : env.createPost with
          | none =>
            rw [publishMain_fail u env st hcp]
            show wpInvariant (ledgerPhase u st).1.blog
            rw [ledgerPhase_blog]
            exact h
          | some wp =>
            rw [(publishMain_ok u env st wp hcp).2.1]
            simp [wpInvariant]

/-- Witness for the amended C7 at the concrete inputs of C1. -/
theorem publish_preserves_wp_invariant_witness :
    wpInvariant (publishBlog wUser wEnv wState).2.1.blog :=
  publish_preserves_wp_invariant wUser wEnv wState (by decide)

/-- Computation lemma: a due refresh with a usable refresh token and a
successful token endpoint call rewrites the token in place. -/
theorem refreshAccessToken_ok (env : RefreshEnv) (t : LinkedInToken) (rt : String)
    (r : RefreshResponse) (hrt : t.refreshToken = some rt) (hne : rt ≠ "")
    (hApi : env.refreshApi = some r) :
    ∃ t', refreshAccessToken env (some t) =
        (true, some t', [.liRefreshApiCall, .liSaveToken t']) ∧
      t'.accessToken = r.accessToken ∧
      t'.refreshToken = jsOrStr r.refreshToken t.refreshToken ∧
      t'.tokenExpiresAt = some (env.now + r.expiresIn * 1000) ∧
      t'.personUrn = t.personUrn := by
  refine ⟨{ t with
      accessToken := r.accessToken
      refreshToken := jsOrStr r.refreshToken t.refreshToken
      tokenExpiresAt := some (env.now + r.expiresIn * 1000) }, ?_, rfl, rfl, rfl, rfl⟩
  simp only [refreshAccessToken, hrt]
  rw [if_neg hne, hApi]

/-- Computation lemma: a refresh attempt without a stored refresh token only
warns. -/
theorem refreshAccessToken_noToken (env : RefreshEnv) (t : LinkedInToken)
    (h : t.refreshToken = none) :
    refreshAccessToken env (some t) = (false, some t, [.liWarnNoRefreshToken]) := by
  simp only [refreshAccessToken, h]

/-- The Facebook check never calls the LinkedIn token endpoint. -/
theorem checkFacebook_no_refresh_call (env : RefreshEnv) :
    RefreshEv.liRefreshApiCall ∉ checkFacebook env := by
  unfold checkFacebook
  split <;> simp

/-- The refreshed-token outcome the spec promises when a LinkedIn token is
due: the stored token now expires at `now + expires_in * 1000` (a future
date), `personUrn` is untouched, and the token endpoint was called. -/
def refreshedOutcome (env : RefreshEnv) (t : LinkedInToken) (r : RefreshResponse) : Prop :=
  ∃ t', (refreshAll env (some t)).1 = some t' ∧
    t'.tokenExpiresAt = some (env.now + r.expiresIn * 1000) ∧
    env.now < env.now + r.expiresIn * 1000 ∧
    t'.personUrn = t.personUrn ∧
    RefreshEv.liRefreshApiCall ∈ (refreshAll env (some t)).2

/-- C8: for a stored LinkedIn token with an expiry date, `refreshAll`
refreshes it (future expiry, `personUrn` unchanged) exactly when it expires
within 7 floor-days: beyond that window the token is untouched and the
token endpoint is never called, and inside the window with no stored
refresh token it only logs the warning and leaves the token unmodified. -/
theorem linkedin_refresh_window (env : RefreshEnv) (t : LinkedInToken) (e : Int)
    (r : RefreshResponse)
    (hExp : t.tokenExpiresAt = some e)
    (hApi : env.refreshApi = some r)
    (hPos : 0 < r.expiresIn) :
    (daysUntilExpiry env.now e ≤ 7 → ∀ rt, t.refreshToken = some rt → rt ≠ "" →
      refreshedOutcome env t r) ∧
    (7 < daysUntilExpiry env.now e →
      (refreshAll env (some t)).1 = some t ∧
      RefreshEv.liRefreshApiCall ∉ (refreshAll env (some t)).2) ∧
    (daysUntilExpiry env.now e ≤ 7 → t.refreshToken = none →
      (refreshAll env (some t)).1 = some t ∧
      RefreshEv.liWarnNoRefreshToken ∈ (refreshAll env (some t)).2 ∧
      RefreshEv.liRefreshApiCall ∉ (refreshAll env (some t)).2) := by
  have hra : refreshAll env (some t) =
      ((checkLinkedIn env (some t)).1,
       (checkLinkedIn env (some t)).2 ++ checkFacebook env) := rfl
  refine ⟨?_, ?_, ?_⟩
  · intro hdays rt hrt hne
    obtain ⟨t', heq, -, -, hexp', hurn⟩ := refreshAccessToken_ok env t rt r hrt hne hApi
    have hcl : checkLinkedIn env (some t) = (some t', [.liRefreshApiCall, .liSaveToken t']) := by
      simp only [checkLinkedIn, hExp]
      rw [if_pos hdays, heq]
    refine ⟨t', ?_, hexp', by omega, hurn, ?_⟩
    · rw [hra, hcl]
    · rw [hra, hcl]
      exact List.mem_append_left _ (List.mem_cons_self _ _)
  · intro hdays
    have hcl : checkLinkedIn env (some t) = (some t, []) := by
      simp only [checkLinkedIn, hExp]
      rw [if_neg (by omega)]
    rw [hra, hcl]
    exact ⟨rfl, by simpa using checkFacebook_no_refresh_call env⟩
  · intro hdays hrt
    have hcl : checkLinkedIn env (some t) = (some t, [.liWarnNoRefreshToken]) := by
      simp only [checkLinkedIn, hExp]
      rw [if_pos hdays, refreshAccessToken_noToken env t hrt]
    rw [hra, hcl]
    refine ⟨rfl, List.mem_append_left _ (List.mem_cons_self _ _), ?_⟩
    intro hmem
    rcases List.mem_append.mp hmem with h | h
    · simp at h
    · exact checkFacebook_no_refresh_call env h

/-- Witness environment for C8: now = 0, a working token endpoint returning
a 60-day expiry. -/
def wRefreshEnv : RefreshEnv :=
  { now := 0, refreshApi := some { accessToken := "new", refreshToken := none, expiresIn := 5184000 },
    fbStored := false }

/-- Witness token for C8: expires in 3 days and has a refresh token. -/
def wLiToken : LinkedInToken :=
  { accessToken := "old", refreshToken := some "rt",
    tokenExpiresAt := some (3 * msPerDay), personUrn := some "urn:li:person:x" }

/-- Witness for C8: the 3-day token is refreshed. -/
theorem linkedin_refresh_window_witness :
    refreshedOutcome wRefreshEnv wLiToken
      { accessToken := "new", refreshToken := none, expiresIn := 5184000 } :=
  (linkedin_refresh_window wRefreshEnv wLiToken (3 * msPerDay)
      { accessToken := "new", refreshToken := none, expiresIn := 5184000 }
      rfl rfl (by decide)).1 (by decide) "rt" rfl (by decide)

/-- Concrete store and environment for the C9 counterexample: a token is
stored, yet reading credentials calls no Graph API at all. -/
def fbEnvStoredOnly : FbEnv :=
  { envAccessToken := none, envPageId := none, accountsApi := some [] }

def fbStoredTok : FbToken := { accessToken := "stored-page-token", pageId := some "42" }

/-- Counterexample to C9: a read of Facebook credentials performs no
`/me/accounts` exchange — it returns the stored token verbatim with an
empty call trace. The exchange lives in `saveCredentials` only. -/
theorem fb_read_performs_no_exchange :
    fbGetCredentials fbEnvStoredOnly (some fbStoredTok)
        = (some ("stored-page-token", "42"), []) ∧
    FbEv.accountsCall ∉ (fbGetCredentials fbEnvStoredOnly (some fbStoredTok)).2 := by
  refine ⟨by decide, by decide⟩

/-- C9 (amended): the Page-token exchange is attempted on every save of
Facebook credentials, not on reads: a read never issues a Graph call, while
a save always calls `/me/accounts`, stores the matched Page token when one
is returned, and stores the supplied token as-is when the call fails or no
page matches. -/
theorem fb_exchange_on_save_not_read (env : FbEnv) (stored : Option FbToken)
    (tok pid : String) :
    (fbGetCredentials env stored).2 = [] ∧
    FbEv.accountsCall ∈ (fbSaveCredentials env tok pid).2 ∧
    (fbSaveCredentials env tok pid).1.pageId = some pid ∧
    (env.accountsApi = none → (fbSaveCredentials env tok pid).1.accessToken = tok) ∧
    (∀ pages, env.accountsApi = some pages → pageMatchToken pages pid = none →
      (fbSaveCredentials env tok pid).1.accessToken = tok) ∧
    (∀ pages pageTok, env.accountsApi = some pages →
      pageMatchToken pages pid = some pageTok →
      (fbSaveCredentials env tok pid).1.accessToken = pageTok) := by
  refine ⟨?_, ?_, rfl, ?_, ?_, ?_⟩
  · unfold fbGetCredentials
    cases h1 : jsOrStr (stored.map (fun t => t.accessToken)) env.envAccessToken <;>
      cases h2 : jsOrStr (stored.bind (fun t => t.pageId)) env.envPageId <;> rfl
  · exact List.mem_cons_self _ _
  · intro h
    unfold fbSaveCredentials
    rw [h]
  · intro pages hp hm
    unfold fbSaveCredentials
    rw [hp]
    simp [hm]
  · intro pages pageTok hp hm
    unfold fbSaveCredentials
    rw [hp]
    simp [hm]

end SchoolChamps
